import Mathlib

/-!
# ipfs-metric-proxy: counters of the metrics reverse proxy

A shallow embedding of `main.go`.  The process-wide Prometheus collectors
(`requestURLPath`, `responseStatus`, `responseErrors`) become one explicit
`Metrics` value that every operation takes and returns.

* A Go string is a sequence of bytes, valid UTF-8 or not (`GoString`).
* A counter is a natural number and `Inc` adds one to it.
* A counter vector is the list of the children created so far.
  `WithLabelValues(..)` panics when a label value is not valid UTF-8;
  otherwise it finds the child of the label tuple, creating it when it is
  absent, and `Inc` adds one to it.  The vectors are declared with one and two
  label names and every call passes as many values.
* A call that can panic returns an `Outcome`: the collectors as the call left
  them and the panic value when it did not return.
* `url.Parse` of `net/url` is a parameter `parse` of every definition that
  calls it, so the general results hold for every parser.
* `log.Printf` writes to the process log, which is not part of `Metrics`, and
  is left out.
-/

namespace IpfsMetricProxy

/-! ## Go strings -/

/-- A Go string: its bytes. -/
abbrev GoString := List UInt8

/-- The Go string of a text: its UTF-8 encoding. -/
def go (s : String) : GoString := s.data.flatMap String.utf8EncodeChar

/-- The scan of Go's `utf8.ValidString`: `pending` continuation bytes are still
due, and the next one has to lie between `lo` and `hi`. -/
def validFrom (pending : Nat) (lo hi : UInt8) : List UInt8 → Bool
  | [] => pending == 0
  | b :: bs =>
    if pending = 0 then
      if b < 0x80 then validFrom 0 0x80 0xBF bs
      else if 0xC2 ≤ b ∧ b ≤ 0xDF then validFrom 1 0x80 0xBF bs
      else if b = 0xE0 then validFrom 2 0xA0 0xBF bs
      else if b = 0xED then validFrom 2 0x80 0x9F bs
      else if 0xE1 ≤ b ∧ b ≤ 0xEF then validFrom 2 0x80 0xBF bs
      else if b = 0xF0 then validFrom 3 0x90 0xBF bs
      else if 0xF1 ≤ b ∧ b ≤ 0xF3 then validFrom 3 0x80 0xBF bs
      else if b = 0xF4 then validFrom 3 0x80 0x8F bs
      else false
    else if lo ≤ b ∧ b ≤ hi then validFrom (pending - 1) 0x80 0xBF bs
    else false

/-- Go: `utf8.ValidString(s)`. -/
def utf8ValidString (s : GoString) : Bool := validFrom 0 0x80 0xBF s

/-! ## Counters -/

/-- A counter vector: its children in creation order, each a label tuple with
its current count. -/
structure CounterVec (κ : Type) where
  children : List (κ × Nat)
deriving DecidableEq

namespace CounterVec

variable {κ : Type} [DecidableEq κ]

/-- The vector right after `NewCounterVec`: no child yet. -/
def empty : CounterVec κ := ⟨[]⟩

/-- Add one to the child labelled `k` in a list of children, creating it when
there is none. -/
def bump (k : κ) : List (κ × Nat) → List (κ × Nat)
  | [] => [(k, 1)]
  | (k', n) :: rest => if k' = k then (k', n + 1) :: rest else (k', n) :: bump k rest

/-- Find or create the child of the label tuple `k` and add one to it: what
`WithLabelValues(k).Inc()` does once the label values are accepted. -/
def incChild (v : CounterVec κ) (k : κ) : CounterVec κ := ⟨bump k v.children⟩

/-- Count of the child labelled `k` in a list of children, `0` when there is none. -/
def find (k : κ) : List (κ × Nat) → Nat
  | [] => 0
  | (k', n) :: rest => if k' = k then n else find k rest

/-- What a scrape reads for the label tuple `k`. -/
def value (v : CounterVec κ) (k : κ) : Nat := find k v.children

/-- The label tuples that have a child. -/
def labels (v : CounterVec κ) : List κ := v.children.map Prod.fst

/-- Sum of the counts of all children. -/
def total (v : CounterVec κ) : Nat := (v.children.map Prod.snd).sum

end CounterVec

/-- The three collectors declared at the top of `main.go`: `request_url_path`
with the label `path`, `response_status` with the labels `code` and `path`,
and the counter `response_errors`. -/
structure Metrics where
  requestURLPath : CounterVec GoString
  responseStatus : CounterVec (GoString × GoString)
  responseErrors : Nat
deriving DecidableEq

/-- The collectors at process start: nothing counted. -/
def Metrics.zero : Metrics := ⟨CounterVec.empty, CounterVec.empty, 0⟩

/-- Sum of every count held by the three collectors. -/
def Metrics.total (m : Metrics) : Nat :=
  m.requestURLPath.total + m.responseStatus.total + m.responseErrors

/-- How a call left the collectors, and the panic value when it panicked
instead of returning. -/
structure Outcome where
  metrics : Metrics
  panic : Option String
deriving DecidableEq

/-- Go: `validateLabelValues`, the check `WithLabelValues` makes on the values
it is given: each has to be valid UTF-8. -/
def validLabelValues (lvs : List GoString) : Bool := lvs.all utf8ValidString

/-- The panic value of `WithLabelValues` for a rejected label value (the
library quotes the value in it). -/
def labelPanic : String := "label value is not valid UTF-8"

/-- Go: `requestURLPath.WithLabelValues(path).Inc()`. -/
def Metrics.incRequestURLPath (m : Metrics) (path : GoString) : Outcome :=
  if validLabelValues [path] then
    ⟨{ m with requestURLPath := m.requestURLPath.incChild path }, none⟩
  else ⟨m, some labelPanic⟩

/-- Go: `responseStatus.WithLabelValues(code, path).Inc()`. -/
def Metrics.incResponseStatus (m : Metrics) (code path : GoString) : Outcome :=
  if validLabelValues [code, path] then
    ⟨{ m with responseStatus := m.responseStatus.incChild (code, path) }, none⟩
  else ⟨m, some labelPanic⟩

/-! ## Request path metric -/

/-- The map `monitored_urls` built at the start of `updateRequestURLPathMetric`. -/
def monitored_urls : List (GoString × Bool) :=
  [ (go "/api/v0/pin/add", true),
    (go "/api/v0/pin/rm", true),
    (go "/api/v0/pin/ls", true),
    (go "/api/v0/id", true),
    (go "/api/v0/pubsub/ls", true),
    (go "/api/v0/pubsub/pub", true),
    (go "/api/v0/pubsub/sub", true),
    (go "/api/v0/dag/get", true),
    (go "/api/v0/dag/put", true),
    (go "/api/v0/dag/resolve", true),
    (go "/api/v0/block/put", true),
    (go "/api/v0/block/get", true),
    (go "/api/v0/block/stat", true),
    (go "/api/v0/swarm/peers", true),
    (go "/api/v0/swarm/connect", true) ]

/-- Go: `m[key]` on a `map[string]bool`; a missing key reads `false`. -/
def mapIndex (key : GoString) : List (GoString × Bool) → Bool
  | [] => false
  | (k, b) :: rest => if k = key then b else mapIndex key rest

/-- The keys of `monitored_urls`: the monitored paths. -/
def monitoredPaths : List GoString := monitored_urls.map Prod.fst

/-- Go: `updateRequestURLPathMetric(path)`. -/
def updateRequestURLPathMetric (m : Metrics) (path : GoString) : Outcome :=
  let o : Outcome :=
    if mapIndex path monitored_urls then m.incRequestURLPath path else ⟨m, none⟩
  match o.panic with
  | some _ => o
  | none => o.metrics.incRequestURLPath (go "unmonitored")

/-! ## HTTP values -/

/-- The fields of Go's `url.URL` this development reads. -/
structure URL where
  Scheme : GoString
  Host : GoString
  Path : GoString
  RawQuery : GoString
deriving DecidableEq

/-- The fields of Go's `http.Request` the proxy reads: `URL.Path` before
forwarding and `RequestURI`, the request-target as the client sent it, after. -/
structure Request where
  Method : GoString
  URL : IpfsMetricProxy.URL
  RequestURI : GoString
deriving DecidableEq

/-- Go's `http.Response` as the reverse proxy hands it to `ModifyResponse`:
`Status` is the status line text such as `200 OK`, `StatusCode` the number,
and `Request` the request that was sent to obtain this response. -/
structure Response where
  Status : GoString
  StatusCode : Int
  Header : List (GoString × GoString)
  Body : GoString
  Request : IpfsMetricProxy.Request
deriving DecidableEq

/-- The type of `url.Parse`: a parsed URL or the text of the parse error. -/
abbrev UrlParse := GoString → Except String URL

/-! ## Response status metric -/

/-- Go: `updateResponseStatusMetric(code, path)`, calling `parse` for `url.Parse`. -/
def updateResponseStatusMetric (parse : UrlParse) (m : Metrics) (code : GoString)
    (path : GoString) : Outcome :=
  match parse path with
  | .error _ => ⟨{ m with responseErrors := m.responseErrors + 1 }, none⟩
  | .ok u => m.incResponseStatus code u.Path

/-! ## The proxy -/

/-- How a `ModifyResponse` hook ends: it returns, leaving the collectors, the
response (the hook receives a pointer and may rewrite it) and its error value;
or it panics. -/
inductive HookResult where
  | returned (metrics : Metrics) (response : Response) (err : Option String)
  | panicked (metrics : Metrics) (msg : String)
deriving DecidableEq

/-- The part of `httputil.ReverseProxy` that `NewProxy` configures.  The
`Director` it installs only calls the library's original director, so request
rewriting stays the library's and is part of the upstream round trip below. -/
structure ReverseProxy where
  target : URL
  ModifyResponse : Metrics → Response → HookResult

/-- Go: `type SimpleProxy struct { Proxy *httputil.ReverseProxy }`. -/
structure SimpleProxy where
  Proxy : ReverseProxy

/-- The closure `NewProxy` assigns to `s.Proxy.ModifyResponse`: it calls
`updateResponseStatusMetric(r.Status, r.Request.RequestURI)` and, when that
call returns, returns `nil`. -/
def modifyResponseHook (parse : UrlParse) (m : Metrics) (r : Response) : HookResult :=
  let o := updateResponseStatusMetric parse m r.Status r.Request.RequestURI
  match o.panic with
  | some msg => .panicked o.metrics msg
  | none => .returned o.metrics r none

/-- Go: `NewProxy(rawUrl)`. -/
def NewProxy (parse : UrlParse) (rawUrl : GoString) : Except String SimpleProxy :=
  match parse rawUrl with
  | .error err => .error err
  | .ok url => .ok ⟨{ target := url, ModifyResponse := modifyResponseHook parse }⟩

/-- What the caller of the proxy gets back: the upstream response relayed, the
502 of the library's default error handler, or nothing, when the handler
panicked (the HTTP server recovers the panic and drops the connection). -/
inductive Reply where
  | relayed (res : Response)
  | badGateway
  | panicked (msg : String)
deriving DecidableEq

/-- The library's `ReverseProxy.ServeHTTP`, as far as the hook is concerned.
`upstream r` is the response received for the forwarded request, `none` when
the round trip fails.  A received response goes through `ModifyResponse`
before anything is written to the caller; when the hook returns no error the
response is relayed; when it returns an error, and when the round trip failed,
the default error handler answers 502; a panic of the hook is not recovered
here. -/
def ReverseProxy.ServeHTTP (p : ReverseProxy) (upstream : Request → Option Response)
    (m : Metrics) (r : Request) : Metrics × Reply :=
  match upstream r with
  | none => (m, .badGateway)
  | some res =>
    match p.ModifyResponse m res with
    | .returned m1 res1 none => (m1, .relayed res1)
    | .returned m1 _ (some _) => (m1, .badGateway)
    | .panicked m1 msg => (m1, .panicked msg)

/-- Go: `(s *SimpleProxy) ServeHTTP(w, r)`. -/
def SimpleProxy.ServeHTTP (s : SimpleProxy) (upstream : Request → Option Response)
    (m : Metrics) (r : Request) : Metrics × Reply :=
  let o := updateRequestURLPathMetric m r.URL.Path
  match o.panic with
  | some msg => (o.metrics, .panicked msg)
  | none => s.Proxy.ServeHTTP upstream o.metrics r

/-! ## Startup -/

/-- The process environment: the value of each variable that is set. -/
abbrev Env := String → Option GoString

/-- Go: `os.Getenv(key)`; empty when the variable is not present. -/
def Getenv (env : Env) (key : String) : GoString := (env key).getD (go "")

/-- What `main` does, in order. -/
inductive Action where
  /-- Go: `NewProxy(rawUrl)` returned a proxy. -/
  | newProxy (rawUrl : GoString)
  /-- Go: `http.Handle(pattern, ..)`. -/
  | handle (pattern : String)
  /-- Go: `http.ListenAndServe(addr, nil)`. -/
  | listenAndServe (addr : GoString)
  /-- Go: `log.Fatal(msg)`; the message is logged and the process exits with status 1. -/
  | fatal (msg : String)
  /-- Go: `panic(err)`; the process aborts. -/
  | panic (err : String)
deriving DecidableEq

/-- Go: `main()`, up to the call of `http.ListenAndServe`. -/
def main (parse : UrlParse) (env : Env) : List Action :=
  let listenAddress := Getenv env "LISTEN_ADDRESS"
  let listenAddress := if listenAddress = go "" then go ":9100" else listenAddress
  let ipfsApiUrl := Getenv env "IPFS_API_URL"
  if ipfsApiUrl = go "" then
    [.fatal "IPFS_API_URL environmental variable is required"]
  else
    match NewProxy parse ipfsApiUrl with
    | .error err => [.panic err]
    | .ok _ =>
      [.newProxy ipfsApiUrl, .handle "/", .handle "/metrics", .listenAndServe listenAddress]

/-! ## Sequences of updates -/

/-- One metric update: the one before forwarding, with the request's path, or
the one after, with the response's status text and the request-target. -/
inductive Update where
  | request (path : GoString)
  | response (code : GoString) (target : GoString)
deriving DecidableEq

/-- Apply one update; a panic ends the handling of that one request and the
collectors stay as the update left them. -/
def Update.apply (parse : UrlParse) (m : Metrics) : Update → Metrics
  | .request path => (updateRequestURLPathMetric m path).metrics
  | .response code target => (updateResponseStatusMetric parse m code target).metrics

/-- Apply a sequence of updates, first to last. -/
def applyUpdates (parse : UrlParse) (m : Metrics) (us : List Update) : Metrics :=
  us.foldl (Update.apply parse) m

/-- Apply `updateRequestURLPathMetric` to a sequence of request paths, first to last. -/
def countPaths (m : Metrics) (paths : List GoString) : Metrics :=
  paths.foldl (fun m p => (updateRequestURLPathMetric m p).metrics) m

/-! ## A parser to instantiate `parse` with -/

/-- The byte of an ASCII character. -/
def byte (c : Char) : UInt8 := c.toNat.toUInt8

/-- Go: `stringContainsCTLByte`. -/
def containsCTL (s : GoString) : Bool :=
  s.any fun b => b < 0x20 || b = 0x7f

/-- Go: `strings.Cut(s, sep)` for a one-byte separator: the text before the
first `sep` and the text after it; the whole text and nothing when there is
no `sep`. -/
def cut (sep : UInt8) : GoString → GoString × GoString
  | [] => ([], [])
  | c :: cs =>
    if c = sep then ([], cs)
    else
      let r := cut sep cs
      (c :: r.1, r.2)

/-- Whether the byte is an ASCII letter. -/
def isLetter (c : UInt8) : Bool :=
  (byte 'a' ≤ c && c ≤ byte 'z') || (byte 'A' ≤ c && c ≤ byte 'Z')

/-- Whether the byte is an ASCII digit. -/
def isDigit (c : UInt8) : Bool := byte '0' ≤ c && c ≤ byte '9'

/-- The loop of Go's `getScheme`: `seen` is the text before the current byte,
`raw` the whole text. -/
def getSchemeLoop (raw : GoString) (seen : GoString) :
    GoString → Except String (GoString × GoString)
  | [] => .ok ([], raw)
  | c :: cs =>
    if isLetter c then getSchemeLoop raw (seen ++ [c]) cs
    else if isDigit c || c = byte '+' || c = byte '-' || c = byte '.' then
      if seen.isEmpty then .ok ([], raw) else getSchemeLoop raw (seen ++ [c]) cs
    else if c = byte ':' then
      if seen.isEmpty then .error "missing protocol scheme" else .ok (seen, cs)
    else .ok ([], raw)

/-- Go: `getScheme(rawURL)`: the scheme and the text after its colon. -/
def getScheme (raw : GoString) : Except String (GoString × GoString) :=
  getSchemeLoop raw [] raw

/-- Go: `strings.ToLower` on one ASCII byte. -/
def toLower (c : UInt8) : UInt8 :=
  if byte 'A' ≤ c && c ≤ byte 'Z' then c + 32 else c

/-- Go: `ishex`. -/
def ishex (c : UInt8) : Bool :=
  isDigit c || (byte 'a' ≤ c && c ≤ byte 'f') || (byte 'A' ≤ c && c ≤ byte 'F')

/-- Go: `unhex`. -/
def unhex (c : UInt8) : UInt8 :=
  if isDigit c then c - byte '0'
  else if byte 'a' ≤ c && c ≤ byte 'f' then c - byte 'a' + 10
  else if byte 'A' ≤ c && c ≤ byte 'F' then c - byte 'A' + 10
  else 0

/-- Go: `unescape(s, encodePath)`, also what `unescape(s, encodeFragment)`
does: every `%` has to be followed by two hex digits and the three bytes
become the byte they spell; every other byte stays. -/
def unescape : GoString → Except String GoString
  | [] => .ok []
  | c :: cs =>
    if c = byte '%' then
      match cs with
      | h1 :: h2 :: rest =>
        if ishex h1 && ishex h2 then
          match unescape rest with
          | .ok out => .ok ((unhex h1 <<< 4 ||| unhex h2) :: out)
          | .error e => .error e
        else .error "invalid URL escape"
      | _ => .error "invalid URL escape"
    else
      match unescape cs with
      | .ok out => .ok (c :: out)
      | .error e => .error e

/-- The text after the last `sep`, the whole text when there is none. -/
def afterLast (sep : UInt8) (cs : GoString) : GoString :=
  (cs.reverse.takeWhile fun c => c ≠ sep).reverse

/-- Go: `parse(rawURL, false)` of `net/url`, the part of `url.Parse` after the
fragment is cut off; the validation of the authority is left out. -/
def urlParseNoFragment (u : GoString) : Except String URL :=
  if containsCTL u then .error "net/url: invalid control character in URL"
  else if u = go "*" then .ok ⟨[], [], go "*", []⟩
  else
    match getScheme u with
    | .error e => .error e
    | .ok (scheme, rest) =>
      let scheme := scheme.map toLower
      let q := cut (byte '?') rest
      let rest := q.1
      if rest.head? ≠ some (byte '/') ∧ ¬ scheme.isEmpty then
        .ok ⟨scheme, [], [], q.2⟩
      else if rest.head? ≠ some (byte '/') ∧ (cut (byte '/') rest).1.contains (byte ':') then
        .error "first path segment in URL cannot contain colon"
      else if (¬ scheme.isEmpty ∨ rest.take 3 ≠ go "///") ∧ rest.take 2 = go "//" then
        let authority := (cut (byte '/') (rest.drop 2)).1
        match unescape ((rest.drop 2).drop authority.length) with
        | .error e => .error e
        | .ok path => .ok ⟨scheme, afterLast (byte '@') authority, path, q.2⟩
      else
        match unescape rest with
        | .error e => .error e
        | .ok path => .ok ⟨scheme, [], path, q.2⟩

/-- A parser following the steps of Go's `url.Parse` (which is not part of the
repository): fragment cut off and checked for malformed escapes, control
characters rejected, scheme, query, rootless text, authority, and the path
with its percent-escapes decoded.  One step is left out: the authority is not
validated.  It is the parser the closed examples below are evaluated with;
every general theorem is about an arbitrary `parse`. -/
def urlParse (rawURL : GoString) : Except String URL :=
  match urlParseNoFragment (cut (byte '#') rawURL).1 with
  | .error e => .error e
  | .ok url =>
    match unescape (cut (byte '#') rawURL).2 with
    | .error e => .error e
    | .ok _ => .ok url

/-! ## The scenario `GET /api/v0/id` -/

/-- The proxy `NewProxy` builds for the upstream `http://origin.example:5001`
with the parser `urlParse`. -/
def originProxy : SimpleProxy :=
  ⟨{ target := ⟨go "http", go "origin.example:5001", [], []⟩
     ModifyResponse := modifyResponseHook urlParse }⟩

/-- The inbound request `GET /api/v0/id`. -/
def getId : Request :=
  { Method := go "GET", URL := ⟨[], [], go "/api/v0/id", []⟩, RequestURI := go "/api/v0/id" }

/-- The inbound request `GET /%ff`: the server decodes the escape, so the path
is the two bytes `/` and `0xff`, which is not valid UTF-8. -/
def getFF : Request :=
  { Method := go "GET", URL := ⟨[], [], [0x2f, 0xff], []⟩, RequestURI := go "/%ff" }

/-- The upstream's answer `HTTP/1.1 200 OK` to the forwarded request `r`: Go's
HTTP client sets `Status` to the text after the protocol version, `200 OK`,
and `StatusCode` to `200`; `Request` is the request as forwarded, its URL
pointing at the upstream and its `RequestURI` still the inbound one. -/
def ok200 (r : Request) : Response :=
  { Status := go "200 OK"
    StatusCode := 200
    Header := [(go "Content-Type", go "application/json")]
    Body := go "\x7b\"ID\":\"peer\"\x7d"
    Request :=
      { r with URL := { r.URL with Scheme := go "http", Host := go "origin.example:5001" } } }

/-- An upstream that answers every forwarded request with `ok200`. -/
def upstream200 (r : Request) : Option Response := some (ok200 r)

/-! ## Well-kept counter vectors -/

/-- Every label tuple has at most one child and every child has been
incremented at least once. -/
def CounterVec.Clean {κ : Type} (v : CounterVec κ) : Prop :=
  v.labels.Nodup ∧ ∀ e ∈ v.children, 0 < e.2


/-! ## Counter lemmas -/

namespace CounterVec

theorem clean_empty {κ : Type} : (empty : CounterVec κ).Clean := by
  constructor
  · exact List.nodup_nil
  · intro e he
    cases he

theorem nodup_children {κ : Type} (v : CounterVec κ) (h : v.Clean) : v.children.Nodup :=
  List.Nodup.of_map Prod.fst h.1

variable {κ : Type} [DecidableEq κ]

theorem find_bump_self (k : κ) (l : List (κ × Nat)) : find k (bump k l) = find k l + 1 := by
  induction l with
  | nil => simp [bump, find]
  | cons hd tl ih =>
    obtain ⟨k', n⟩ := hd
    by_cases h : k' = k
    · simp [bump, find, h]
    · simp [bump, find, h, ih]

theorem find_bump_other {k j : κ} (h : j ≠ k) (l : List (κ × Nat)) :
    find j (bump k l) = find j l := by
  induction l with
  | nil => simp [bump, find, Ne.symm h]
  | cons hd tl ih =>
    obtain ⟨k', n⟩ := hd
    by_cases hk : k' = k
    · subst hk
      simp [bump, find, Ne.symm h]
    · by_cases hj : k' = j
      · subst hj
        simp [bump, find, h]
      · simp [bump, find, hk, hj, ih]

theorem value_inc_self (v : CounterVec κ) (k : κ) :
    (v.incChild k).value k = v.value k + 1 :=
  find_bump_self k v.children

theorem value_inc_other (v : CounterVec κ) {k j : κ} (h : j ≠ k) :
    (v.incChild k).value j = v.value j :=
  find_bump_other h v.children

theorem total_inc (v : CounterVec κ) (k : κ) :
    (v.incChild k).total = v.total + 1 := by
  obtain ⟨l⟩ := v
  simp only [incChild, total]
  induction l with
  | nil => simp [bump]
  | cons hd tl ih =>
    obtain ⟨k', n⟩ := hd
    by_cases h : k' = k
    · simp [bump, h]; omega
    · simp [bump, h, ih]; omega

theorem map_fst_bump (k : κ) (l : List (κ × Nat)) :
    (bump k l).map Prod.fst
      = if k ∈ l.map Prod.fst then l.map Prod.fst else l.map Prod.fst ++ [k] := by
  induction l with
  | nil => simp [bump]
  | cons hd tl ih =>
    obtain ⟨k', n⟩ := hd
    by_cases h : k' = k
    · simp [bump, h]
    · have h' : ¬ k = k' := fun e => h e.symm
      by_cases hk : k ∈ tl.map Prod.fst
      · simp only [bump, h, if_false, List.map_cons, ih, hk, if_true, List.mem_cons, or_true]
      · simp only [bump, h, if_false, List.map_cons, ih, hk, List.mem_cons, h', or_self,
          List.cons_append]

theorem labels_inc (v : CounterVec κ) (k : κ) :
    (v.incChild k).labels = if k ∈ v.labels then v.labels else v.labels ++ [k] :=
  map_fst_bump k v.children

theorem mem_labels_inc (v : CounterVec κ) (k j : κ) :
    j ∈ (v.incChild k).labels ↔ j ∈ v.labels ∨ j = k := by
  rw [labels_inc]
  by_cases hk : k ∈ v.labels
  · simp only [hk, if_true]
    constructor
    · exact Or.inl
    · rintro (h | h)
      · exact h
      · exact h ▸ hk
  · simp [hk]

theorem pos_bump (k : κ) (l : List (κ × Nat)) (h : ∀ e ∈ l, 0 < e.2) :
    ∀ e ∈ bump k l, 0 < e.2 := by
  induction l with
  | nil =>
    intro e he
    simp only [bump, List.mem_singleton] at he
    subst he
    exact Nat.one_pos
  | cons hd tl ih =>
    obtain ⟨k', n⟩ := hd
    have htl : ∀ e ∈ tl, 0 < e.2 := fun e he => h e (List.mem_cons_of_mem _ he)
    intro e he
    by_cases hk : k' = k
    · simp only [bump, hk, if_true, List.mem_cons] at he
      rcases he with he | he
      · subst he
        exact Nat.succ_pos n
      · exact htl e he
    · simp only [bump, hk, if_false, List.mem_cons] at he
      rcases he with he | he
      · subst he
        exact h (k', n) (List.mem_cons_self _ _)
      · exact ih htl e he

theorem clean_inc (v : CounterVec κ) (k : κ) (h : v.Clean) : (v.incChild k).Clean := by
  constructor
  · rw [labels_inc]
    by_cases hk : k ∈ v.labels
    · simpa only [hk, if_true] using h.1
    · simp only [hk, if_false]
      exact List.nodup_append.2 ⟨h.1, List.nodup_singleton k, by
        intro a ha hb
        rw [List.mem_singleton] at hb
        exact hk (hb ▸ ha)⟩
  · exact pos_bump k v.children h.2

theorem find_of_not_mem (k : κ) (l : List (κ × Nat)) (h : k ∉ l.map Prod.fst) :
    find k l = 0 := by
  induction l with
  | nil => rfl
  | cons hd tl ih =>
    obtain ⟨k', n⟩ := hd
    simp only [List.map_cons, List.mem_cons, not_or] at h
    have hk : ¬ k' = k := fun e => h.1 e.symm
    simp only [find, hk, if_false]
    exact ih h.2

theorem mem_labels_of_value_ne_zero (v : CounterVec κ) (k : κ) (h : v.value k ≠ 0) :
    k ∈ v.labels := by
  by_contra hk
  exact h (find_of_not_mem k v.children hk)

/-- In a clean vector the children are exactly the positive readings. -/
theorem mem_children_iff (v : CounterVec κ) (h : v.Clean) (k : κ) (n : Nat) :
    (k, n) ∈ v.children ↔ 0 < n ∧ v.value k = n := by
  obtain ⟨l⟩ := v
  obtain ⟨hnd, hpos⟩ := h
  simp only [labels, value] at *
  induction l with
  | nil =>
    simp only [List.not_mem_nil, find, false_iff, not_and]
    intro h0 h1
    omega
  | cons hd tl ih =>
    obtain ⟨k', n'⟩ := hd
    simp only [List.map_cons, List.nodup_cons] at hnd
    have htl : ∀ e ∈ tl, 0 < e.2 := fun e he => hpos e (List.mem_cons_of_mem _ he)
    have hn' : 0 < n' := hpos (k', n') (List.mem_cons_self _ _)
    have ih' := ih hnd.2 htl
    by_cases hk : k' = k
    · subst hk
      have hnot : (k', n) ∉ tl := fun hm => hnd.1 (List.mem_map_of_mem Prod.fst hm)
      simp only [List.mem_cons, Prod.mk.injEq, true_and, hnot, or_false, find, if_true]
      constructor
      · intro e
        subst e
        exact ⟨hn', rfl⟩
      · intro e
        exact e.2.symm
    · have hk' : ¬ k = k' := fun e => hk e.symm
      simp only [List.mem_cons, Prod.mk.injEq, hk', false_and, false_or, find, hk, if_false]
      exact ih'

/-- Two clean vectors with the same reading at every label tuple hold the same
children, up to their order. -/
theorem children_perm (v w : CounterVec κ) (hv : v.Clean) (hw : w.Clean)
    (h : ∀ k, v.value k = w.value k) : v.children.Perm w.children := by
  rw [List.perm_ext_iff_of_nodup (nodup_children v hv) (nodup_children w hw)]
  rintro ⟨k, n⟩
  rw [mem_children_iff v hv, mem_children_iff w hw, h k]

end CounterVec

/-! ## The monitored paths -/

theorem mapIndex_all_true (p : GoString) (l : List (GoString × Bool))
    (h : ∀ e ∈ l, e.2 = true) : mapIndex p l = true ↔ p ∈ l.map Prod.fst := by
  induction l with
  | nil => simp [mapIndex]
  | cons hd tl ih =>
    obtain ⟨k, b⟩ := hd
    have hb : b = true := h (k, b) (by simp)
    have ih' := ih (fun e he => h e (List.mem_cons_of_mem _ he))
    by_cases hk : k = p
    · simp [mapIndex, hk, hb]
    · have hk' : ¬ p = k := fun e => hk e.symm
      simp [mapIndex, hk, hk', ih']

theorem mapIndex_monitored (p : GoString) :
    mapIndex p monitored_urls = true ↔ p ∈ monitoredPaths :=
  mapIndex_all_true p monitored_urls (by decide)

theorem unmonitored_not_monitored : go "unmonitored" ∉ monitoredPaths := by decide

/-- The fifteen monitored paths, in the order `main.go` lists them. -/
theorem monitoredPaths_eq :
    monitoredPaths =
      [go "/api/v0/pin/add", go "/api/v0/pin/rm", go "/api/v0/pin/ls", go "/api/v0/id",
        go "/api/v0/pubsub/ls", go "/api/v0/pubsub/pub", go "/api/v0/pubsub/sub",
        go "/api/v0/dag/get", go "/api/v0/dag/put", go "/api/v0/dag/resolve",
        go "/api/v0/block/put", go "/api/v0/block/get", go "/api/v0/block/stat",
        go "/api/v0/swarm/peers", go "/api/v0/swarm/connect"] ∧
    monitoredPaths.length = 15 ∧ monitoredPaths.Nodup :=
  ⟨rfl, rfl, by decide⟩

/-- Every monitored path is valid UTF-8, and so is the label `unmonitored`. -/
theorem monitored_labels_valid :
    (∀ p ∈ monitoredPaths, validLabelValues [p] = true) ∧
    validLabelValues [go "unmonitored"] = true :=
  ⟨by decide, by decide⟩

/-! ## The request path metric, one call -/

/-- The call never panics: with a monitored path it increments the path's child
and then the child `unmonitored`, with any other path only the latter. -/
theorem updateRequestURLPathMetric_eq (m : Metrics) (p : GoString) :
    updateRequestURLPathMetric m p =
      ⟨{ m with requestURLPath :=
          (if p ∈ monitoredPaths then m.requestURLPath.incChild p
            else m.requestURLPath).incChild (go "unmonitored") }, none⟩ := by
  unfold updateRequestURLPathMetric
  by_cases hp : p ∈ monitoredPaths
  · have hm : mapIndex p monitored_urls = true := (mapIndex_monitored p).2 hp
    simp [hm, hp, Metrics.incRequestURLPath, monitored_labels_valid.1 p hp,
      monitored_labels_valid.2]
  · have hm : mapIndex p monitored_urls = false := by
      cases h : mapIndex p monitored_urls with
      | false => rfl
      | true => exact absurd ((mapIndex_monitored p).1 h) hp
    simp [hm, hp, Metrics.incRequestURLPath, monitored_labels_valid.2]

theorem updateRequestURLPathMetric_panic (m : Metrics) (p : GoString) :
    (updateRequestURLPathMetric m p).panic = none := by
  rw [updateRequestURLPathMetric_eq]

/-- Every reading of `request_url_path` after one call, for every path and label. -/
theorem updateRequestURLPathMetric_value (m : Metrics) (p l : GoString) :
    (updateRequestURLPathMetric m p).metrics.requestURLPath.value l =
      m.requestURLPath.value l + (if p ∈ monitoredPaths ∧ l = p then 1 else 0)
        + (if l = go "unmonitored" then 1 else 0) := by
  rw [updateRequestURLPathMetric_eq]
  by_cases hp : p ∈ monitoredPaths
  · simp only [hp, if_true, true_and]
    by_cases hu : l = go "unmonitored"
    · subst hu
      by_cases hl : go "unmonitored" = p
      · exact absurd (hl ▸ hp) unmonitored_not_monitored
      · simp [CounterVec.value_inc_self, CounterVec.value_inc_other _ hl, hl]
    · by_cases hl : l = p
      · subst hl
        simp [CounterVec.value_inc_self, CounterVec.value_inc_other _ hu, hu]
      · simp [CounterVec.value_inc_other _ hu, CounterVec.value_inc_other _ hl, hl, hu]
  · simp only [hp, if_false, false_and]
    by_cases hu : l = go "unmonitored"
    · subst hu
      simp [CounterVec.value_inc_self]
    · simp [CounterVec.value_inc_other _ hu, hu]

theorem updateRequestURLPathMetric_responseStatus (m : Metrics) (p : GoString) :
    (updateRequestURLPathMetric m p).metrics.responseStatus = m.responseStatus := by
  rw [updateRequestURLPathMetric_eq]

theorem updateRequestURLPathMetric_responseErrors (m : Metrics) (p : GoString) :
    (updateRequestURLPathMetric m p).metrics.responseErrors = m.responseErrors := by
  rw [updateRequestURLPathMetric_eq]

/-- C1: for every counter state and every monitored path `p`, one call of
`updateRequestURLPathMetric` with `p` adds exactly 1 to `request_url_path` under
`p` and exactly 1 under `unmonitored`, and leaves every other label of
`request_url_path`, the whole of `response_status` and `response_errors` as
they were; the call returns without a panic. -/
theorem monitored_path_counted_under_both_labels (m : Metrics) (p : GoString)
    (hp : p ∈ monitoredPaths) :
    (updateRequestURLPathMetric m p).metrics.requestURLPath.value p
        = m.requestURLPath.value p + 1 ∧
    (updateRequestURLPathMetric m p).metrics.requestURLPath.value (go "unmonitored")
        = m.requestURLPath.value (go "unmonitored") + 1 ∧
    (∀ l : GoString, l ≠ p → l ≠ go "unmonitored" →
      (updateRequestURLPathMetric m p).metrics.requestURLPath.value l
        = m.requestURLPath.value l) ∧
    (updateRequestURLPathMetric m p).metrics.responseStatus = m.responseStatus ∧
    (updateRequestURLPathMetric m p).metrics.responseErrors = m.responseErrors ∧
    (updateRequestURLPathMetric m p).panic = none := by
  have hne : ¬ go "unmonitored" = p := fun h => unmonitored_not_monitored (h ▸ hp)
  refine ⟨?_, ?_, ?_, updateRequestURLPathMetric_responseStatus m p,
    updateRequestURLPathMetric_responseErrors m p, updateRequestURLPathMetric_panic m p⟩
  · have hpu : ¬ p = go "unmonitored" := fun h => hne h.symm
    simp [updateRequestURLPathMetric_value, hp, hpu]
  · simp [updateRequestURLPathMetric_value, hp, hne]
  · intro l hl hu
    simp [updateRequestURLPathMetric_value, hl, hu]

/-- The monitored path `/api/v0/dag/put`, counted from a state that already
holds counts. -/
theorem monitored_path_counted_under_both_labels_witness :
    go "/api/v0/dag/put" ∈ monitoredPaths ∧
    (updateRequestURLPathMetric
        ⟨⟨[(go "unmonitored", 7), (go "/api/v0/dag/put", 4), (go "/api/v0/id", 2)]⟩, ⟨[]⟩, 3⟩
        (go "/api/v0/dag/put")).metrics.requestURLPath.children
      = [(go "unmonitored", 8), (go "/api/v0/dag/put", 5), (go "/api/v0/id", 2)] ∧
    (updateRequestURLPathMetric
        ⟨⟨[(go "unmonitored", 7), (go "/api/v0/dag/put", 4), (go "/api/v0/id", 2)]⟩, ⟨[]⟩, 3⟩
        (go "/api/v0/dag/put")).metrics.requestURLPath.value (go "/api/v0/dag/put") = 4 + 1 :=
  ⟨by decide, by decide,
    (monitored_path_counted_under_both_labels
      ⟨⟨[(go "unmonitored", 7), (go "/api/v0/dag/put", 4), (go "/api/v0/id", 2)]⟩, ⟨[]⟩, 3⟩
      (go "/api/v0/dag/put") (by decide)).1⟩

/-- C2: for every counter state and every path `p`, any byte string at all,
that is not exactly one of the monitored paths, one call of
`updateRequestURLPathMetric` with `p` adds exactly 1 to `request_url_path` under
`unmonitored`, and leaves every other label of `request_url_path`, the whole of
`response_status` and `response_errors` as they were; the call returns without
a panic. -/
theorem other_path_counted_under_unmonitored_only (m : Metrics) (p : GoString)
    (hp : p ∉ monitoredPaths) :
    (updateRequestURLPathMetric m p).metrics.requestURLPath.value (go "unmonitored")
        = m.requestURLPath.value (go "unmonitored") + 1 ∧
    (∀ l : GoString, l ≠ go "unmonitored" →
      (updateRequestURLPathMetric m p).metrics.requestURLPath.value l
        = m.requestURLPath.value l) ∧
    (updateRequestURLPathMetric m p).metrics.responseStatus = m.responseStatus ∧
    (updateRequestURLPathMetric m p).metrics.responseErrors = m.responseErrors ∧
    (updateRequestURLPathMetric m p).panic = none := by
  refine ⟨?_, ?_, updateRequestURLPathMetric_responseStatus m p,
    updateRequestURLPathMetric_responseErrors m p, updateRequestURLPathMetric_panic m p⟩
  · simp [updateRequestURLPathMetric_value, hp]
  · intro l hu
    simp [updateRequestURLPathMetric_value, hp, hu]

/-- The near misses of the monitored path `/api/v0/id`: a trailing slash, upper
case, the empty path and the text `unmonitored` itself are all counted under
`unmonitored` only; the path itself keeps its count. -/
theorem other_path_counted_under_unmonitored_only_witness :
    (go "/api/v0/id/" ∉ monitoredPaths ∧ go "/API/V0/ID" ∉ monitoredPaths ∧
      go "" ∉ monitoredPaths ∧ go "unmonitored" ∉ monitoredPaths) ∧
    (updateRequestURLPathMetric ⟨⟨[(go "/api/v0/id", 2)]⟩, ⟨[]⟩, 0⟩
        (go "/api/v0/id/")).metrics.requestURLPath.children
      = [(go "/api/v0/id", 2), (go "unmonitored", 1)] ∧
    (updateRequestURLPathMetric ⟨⟨[(go "/api/v0/id", 2)]⟩, ⟨[]⟩, 0⟩
        (go "/API/V0/ID")).metrics.requestURLPath.value (go "/api/v0/id") = 2 ∧
    (updateRequestURLPathMetric ⟨⟨[(go "/api/v0/id", 2)]⟩, ⟨[]⟩, 0⟩
        (go "")).metrics.requestURLPath.value (go "unmonitored") = 0 + 1 ∧
    (updateRequestURLPathMetric ⟨⟨[(go "unmonitored", 5)]⟩, ⟨[]⟩, 0⟩
        (go "unmonitored")).metrics.requestURLPath.value (go "unmonitored") = 5 + 1 :=
  ⟨by decide, by decide,
    (other_path_counted_under_unmonitored_only ⟨⟨[(go "/api/v0/id", 2)]⟩, ⟨[]⟩, 0⟩
      (go "/API/V0/ID") (by decide)).2.1 (go "/api/v0/id") (by decide),
    (other_path_counted_under_unmonitored_only ⟨⟨[(go "/api/v0/id", 2)]⟩, ⟨[]⟩, 0⟩
      (go "") (by decide)).1,
    (other_path_counted_under_unmonitored_only ⟨⟨[(go "unmonitored", 5)]⟩, ⟨[]⟩, 0⟩
      (go "unmonitored") (by decide)).1⟩

/-! ## The response status metric, one call -/

theorem updateResponseStatusMetric_requestURLPath (parse : UrlParse) (m : Metrics)
    (c t : GoString) :
    (updateResponseStatusMetric parse m c t).metrics.requestURLPath = m.requestURLPath := by
  unfold updateResponseStatusMetric Metrics.incResponseStatus
  split
  · rfl
  · split <;> rfl

/-- The call on a target that parses and gives valid label values. -/
theorem updateResponseStatusMetric_ok (parse : UrlParse) (m : Metrics) (c t : GoString)
    (u : URL) (ht : parse t = .ok u) (hv : validLabelValues [c, u.Path] = true) :
    updateResponseStatusMetric parse m c t =
      ⟨{ m with responseStatus := m.responseStatus.incChild (c, u.Path) }, none⟩ := by
  simp only [updateResponseStatusMetric, ht, Metrics.incResponseStatus, hv, if_true]

/-- The call on a target that parses but gives a label value that is not valid
UTF-8: the panic of `WithLabelValues`, and nothing counted. -/
theorem updateResponseStatusMetric_panic (parse : UrlParse) (m : Metrics) (c t : GoString)
    (u : URL) (ht : parse t = .ok u) (hv : validLabelValues [c, u.Path] = false) :
    updateResponseStatusMetric parse m c t = ⟨m, some labelPanic⟩ := by
  simp [updateResponseStatusMetric, ht, Metrics.incResponseStatus, hv]

/-- The call on a target that does not parse. -/
theorem updateResponseStatusMetric_error (parse : UrlParse) (m : Metrics) (c t : GoString)
    (e : String) (ht : parse t = .error e) :
    updateResponseStatusMetric parse m c t =
      ⟨{ m with responseErrors := m.responseErrors + 1 }, none⟩ := by
  simp only [updateResponseStatusMetric, ht]

/-- The call returns when the target does not parse, and when it parses and
the status text and the parsed path are valid UTF-8. -/
theorem updateResponseStatusMetric_returns (parse : UrlParse) (m : Metrics) (c t : GoString)
    (hv : ∀ u, parse t = .ok u → utf8ValidString c = true ∧ utf8ValidString u.Path = true) :
    (updateResponseStatusMetric parse m c t).panic = none := by
  cases h : parse t with
  | error e => rw [updateResponseStatusMetric_error parse m c t e h]
  | ok u =>
    have hl : validLabelValues [c, u.Path] = true := by
      simp [validLabelValues, (hv u h).1, (hv u h).2]
    rw [updateResponseStatusMetric_ok parse m c t u h hl]

/-- C4: for every counter state, status text `c` and request-target `t`: when
`url.Parse` rejects `t`, one call of `updateResponseStatusMetric` adds exactly 1
to `response_errors`, leaves the whole of `response_status` and of
`request_url_path` as they were and returns without a panic; `response_errors`
is incremented exactly when parsing `t` fails and is unchanged when it
succeeds; and `updateRequestURLPathMetric` never changes `response_errors`. -/
theorem response_errors_counts_parse_failures (parse : UrlParse) (m : Metrics)
    (c t : GoString) :
    ((∃ e, parse t = .error e) →
      (updateResponseStatusMetric parse m c t).metrics.responseErrors = m.responseErrors + 1 ∧
      (updateResponseStatusMetric parse m c t).metrics.responseStatus = m.responseStatus ∧
      (updateResponseStatusMetric parse m c t).metrics.requestURLPath = m.requestURLPath ∧
      (updateResponseStatusMetric parse m c t).panic = none) ∧
    ((updateResponseStatusMetric parse m c t).metrics.responseErrors = m.responseErrors + 1
      ↔ ∃ e, parse t = .error e) ∧
    ((updateResponseStatusMetric parse m c t).metrics.responseErrors ≠ m.responseErrors
      ↔ ∃ e, parse t = .error e) ∧
    (∀ p : GoString,
      (updateRequestURLPathMetric m p).metrics.responseErrors = m.responseErrors) := by
  have hok : ∀ u, parse t = .ok u →
      (updateResponseStatusMetric parse m c t).metrics.responseErrors = m.responseErrors := by
    intro u hu
    cases hv : validLabelValues [c, u.Path] with
    | true => rw [updateResponseStatusMetric_ok parse m c t u hu hv]
    | false => rw [updateResponseStatusMetric_panic parse m c t u hu hv]
  refine ⟨?_, ?_, ?_, updateRequestURLPathMetric_responseErrors m⟩
  · rintro ⟨e, he⟩
    rw [updateResponseStatusMetric_error parse m c t e he]
    exact ⟨rfl, rfl, rfl, rfl⟩
  · cases h : parse t with
    | error e =>
      rw [updateResponseStatusMetric_error parse m c t e h]
      simp
    | ok u =>
      rw [hok u h]
      simp
  · cases h : parse t with
    | error e =>
      rw [updateResponseStatusMetric_error parse m c t e h]
      simp
    | ok u =>
      rw [hok u h]
      simp

/-- The target of a `CONNECT 127.0.0.1:5001` request is rejected by the parser
and counted as one response error, with no `response_status` child created. -/
theorem response_errors_counts_parse_failures_witness :
    urlParse (go "127.0.0.1:5001")
      = .error "first path segment in URL cannot contain colon" ∧
    (updateResponseStatusMetric urlParse Metrics.zero (go "200 OK")
        (go "127.0.0.1:5001")).metrics.responseErrors = 0 + 1 ∧
    (updateResponseStatusMetric urlParse Metrics.zero (go "200 OK")
        (go "127.0.0.1:5001")).metrics.responseStatus = Metrics.zero.responseStatus :=
  ⟨rfl,
    ((response_errors_counts_parse_failures urlParse Metrics.zero (go "200 OK")
      (go "127.0.0.1:5001")).1 ⟨_, rfl⟩).1,
    ((response_errors_counts_parse_failures urlParse Metrics.zero (go "200 OK")
      (go "127.0.0.1:5001")).1 ⟨_, rfl⟩).2.1⟩

/-! ## The hook and the handler -/

theorem NewProxy_hook (parse : UrlParse) (rawUrl : GoString) (s : SimpleProxy)
    (hs : NewProxy parse rawUrl = .ok s) :
    s.Proxy.ModifyResponse = modifyResponseHook parse := by
  unfold NewProxy at hs
  split at hs
  · cases hs
  · cases hs
    rfl

/-- The handler of a proxy built by `NewProxy`, on a request that gets an
upstream response whose metric update returns: both metric updates and the
response relayed. -/
theorem ServeHTTP_of_response (parse : UrlParse) (rawUrl : GoString) (s : SimpleProxy)
    (hs : NewProxy parse rawUrl = .ok s) (upstream : Request → Option Response)
    (m : Metrics) (r : Request) (res : Response) (hres : upstream r = some res)
    (hret : (updateResponseStatusMetric parse (updateRequestURLPathMetric m r.URL.Path).metrics
      res.Status res.Request.RequestURI).panic = none) :
    s.ServeHTTP upstream m r =
      ((updateResponseStatusMetric parse (updateRequestURLPathMetric m r.URL.Path).metrics
        res.Status res.Request.RequestURI).metrics, .relayed res) := by
  simp only [SimpleProxy.ServeHTTP, updateRequestURLPathMetric_panic, ReverseProxy.ServeHTTP,
    hres, NewProxy_hook parse rawUrl s hs, modifyResponseHook, hret]

/-- C5, evaluated on the code: for `GET /%ff`, answered by the upstream with
`200 OK`, the request-target parses and its path is not valid UTF-8, so the
hook installed by `NewProxy` panics in `WithLabelValues` instead of returning,
and the handler relays nothing: the failure of the metric update has become a
failure of the proxied response.  The request was counted under `unmonitored`
before forwarding. -/
theorem hook_panics_on_non_utf8_path :
    NewProxy urlParse (go "http://origin.example:5001") = .ok originProxy ∧
    upstream200 getFF = some (ok200 getFF) ∧
    urlParse (ok200 getFF).Request.RequestURI = .ok ⟨[], [], [0x2f, 0xff], []⟩ ∧
    originProxy.Proxy.ModifyResponse Metrics.zero (ok200 getFF)
      = .panicked Metrics.zero labelPanic ∧
    originProxy.ServeHTTP upstream200 Metrics.zero getFF
      = (⟨⟨[(go "unmonitored", 1)]⟩, ⟨[]⟩, 0⟩, .panicked labelPanic) ∧
    (originProxy.ServeHTTP upstream200 Metrics.zero getFF).2 ≠ .relayed (ok200 getFF) :=
  ⟨rfl, rfl, rfl, by decide, by decide, by decide⟩

/-- On every response whose metric update returns, that is whose target does
not parse or whose status text and parsed path are valid UTF-8, the hook of a
proxy built by `NewProxy` returns no error and the response as it received it,
and the handler relays that response. -/
theorem hook_returns_response_unchanged (parse : UrlParse) (rawUrl : GoString)
    (s : SimpleProxy) (hs : NewProxy parse rawUrl = .ok s) (m : Metrics) (res : Response)
    (hv : ∀ u, parse res.Request.RequestURI = .ok u →
      utf8ValidString res.Status = true ∧ utf8ValidString u.Path = true) :
    s.Proxy.ModifyResponse m res =
      .returned (updateResponseStatusMetric parse m res.Status res.Request.RequestURI).metrics
        res none := by
  simp only [NewProxy_hook parse rawUrl s hs, modifyResponseHook,
    updateResponseStatusMetric_returns parse m res.Status res.Request.RequestURI hv]

/-! ## One handled request -/

/-- C6, evaluated on the code: from all counters at zero, `GET /api/v0/id`
answered by the upstream with `HTTP/1.1 200 OK` leaves `request_url_path` at 1
under `/api/v0/id` and at 1 under `unmonitored`; the single `response_status`
child is labelled with the status text `200 OK`, and the count under the status
code string `200` is 0. -/
theorem scenario_status_label_is_status_text :
    NewProxy urlParse (go "http://origin.example:5001") = .ok originProxy ∧
    (ok200 getId).StatusCode = 200 ∧
    (originProxy.ServeHTTP upstream200 Metrics.zero getId).1.requestURLPath.value
        (go "/api/v0/id") = 1 ∧
    (originProxy.ServeHTTP upstream200 Metrics.zero getId).1.requestURLPath.value
        (go "unmonitored") = 1 ∧
    (originProxy.ServeHTTP upstream200 Metrics.zero getId).1.responseStatus.value
        (go "200", go "/api/v0/id") = 0 ∧
    (originProxy.ServeHTTP upstream200 Metrics.zero getId).1.responseStatus.children
        = [((go "200 OK", go "/api/v0/id"), 1)] :=
  ⟨rfl, rfl, by decide, by decide, by decide, by decide⟩

theorem updateRequestURLPathMetric_total (m : Metrics) (p : GoString) :
    (updateRequestURLPathMetric m p).metrics.total
      = m.total + (if p ∈ monitoredPaths then 2 else 1) := by
  rw [updateRequestURLPathMetric_eq]
  by_cases hp : p ∈ monitoredPaths
  · simp only [hp, if_true, Metrics.total, CounterVec.total_inc]
    omega
  · simp only [hp, if_false, Metrics.total, CounterVec.total_inc]
    omega

theorem updateResponseStatusMetric_total (parse : UrlParse) (m : Metrics) (c t : GoString)
    (hret : (updateResponseStatusMetric parse m c t).panic = none) :
    (updateResponseStatusMetric parse m c t).metrics.total = m.total + 1 ∧
    (updateResponseStatusMetric parse m c t).metrics.responseStatus.total
        + (updateResponseStatusMetric parse m c t).metrics.responseErrors
      = m.responseStatus.total + m.responseErrors + 1 := by
  cases h : parse t with
  | error e =>
    rw [updateResponseStatusMetric_error parse m c t e h]
    simp only [Metrics.total]
    omega
  | ok u =>
    cases hv : validLabelValues [c, u.Path] with
    | true =>
      rw [updateResponseStatusMetric_ok parse m c t u h hv]
      simp only [Metrics.total, CounterVec.total_inc]
      omega
    | false =>
      rw [updateResponseStatusMetric_panic parse m c t u h hv] at hret
      cases hret

/-- C7 as stated fails: handling `GET /api/v0/id`, a monitored path, with an
upstream response received makes the sum of all counters grow by 3, not by 2. -/
theorem monitored_request_grows_total_by_three :
    NewProxy urlParse (go "http://origin.example:5001") = .ok originProxy ∧
    upstream200 getId = some (ok200 getId) ∧
    (originProxy.ServeHTTP upstream200 Metrics.zero getId).1.total
      = Metrics.zero.total + 3 ∧
    (originProxy.ServeHTTP upstream200 Metrics.zero getId).1.total
      ≠ Metrics.zero.total + 2 :=
  ⟨rfl, rfl, by decide, by decide⟩

/-- C7, amended: for every proxy built by `NewProxy`, every counter state and
every request for which an upstream response is received whose status text and
parsed target path are valid UTF-8 whenever the target parses, handling the
request makes the sum of all counters grow by exactly 2 when the request path
is not a monitored path and by exactly 3 when it is (the step before
forwarding then increments both the path's own label and `unmonitored`); in
both cases exactly one of these increments is made after forwarding, to
`response_status` or to `response_errors`. -/
theorem handled_request_total_growth (parse : UrlParse) (rawUrl : GoString) (s : SimpleProxy)
    (hs : NewProxy parse rawUrl = .ok s) (upstream : Request → Option Response)
    (m : Metrics) (r : Request) (res : Response) (hres : upstream r = some res)
    (hv : ∀ u, parse res.Request.RequestURI = .ok u →
      utf8ValidString res.Status = true ∧ utf8ValidString u.Path = true) :
    (s.ServeHTTP upstream m r).1.total
      = m.total + (if r.URL.Path ∈ monitoredPaths then 3 else 2) ∧
    (s.ServeHTTP upstream m r).1.responseStatus.total + (s.ServeHTTP upstream m r).1.responseErrors
      = m.responseStatus.total + m.responseErrors + 1 := by
  have hret := updateResponseStatusMetric_returns parse
    (updateRequestURLPathMetric m r.URL.Path).metrics res.Status res.Request.RequestURI hv
  have ht := updateResponseStatusMetric_total parse
    (updateRequestURLPathMetric m r.URL.Path).metrics res.Status res.Request.RequestURI hret
  rw [ServeHTTP_of_response parse rawUrl s hs upstream m r res hres hret]
  refine ⟨?_, ?_⟩
  · rw [ht.1, updateRequestURLPathMetric_total]
    split <;> omega
  · rw [ht.2, updateRequestURLPathMetric_responseStatus,
      updateRequestURLPathMetric_responseErrors]

/-- A request to the unmonitored path `/api/v0/version` makes the sum grow by
2, the request `GET /api/v0/id` by 3. -/
theorem handled_request_total_growth_witness :
    NewProxy urlParse (go "http://origin.example:5001") = .ok originProxy ∧
    (originProxy.ServeHTTP upstream200 Metrics.zero
        ⟨go "GET", ⟨[], [], go "/api/v0/version", []⟩, go "/api/v0/version"⟩).1.total
      = Metrics.zero.total + (if go "/api/v0/version" ∈ monitoredPaths then 3 else 2) ∧
    go "/api/v0/version" ∉ monitoredPaths ∧
    (originProxy.ServeHTTP upstream200 Metrics.zero getId).1.total
      = Metrics.zero.total + (if go "/api/v0/id" ∈ monitoredPaths then 3 else 2) ∧
    go "/api/v0/id" ∈ monitoredPaths :=
  ⟨rfl,
    (handled_request_total_growth urlParse (go "http://origin.example:5001") originProxy rfl
      upstream200 Metrics.zero
      ⟨go "GET", ⟨[], [], go "/api/v0/version", []⟩, go "/api/v0/version"⟩ _ rfl
      (by
        intro u hu
        have hu2 : u = ⟨[], [], go "/api/v0/version", []⟩ := by
          have h0 : urlParse (go "/api/v0/version")
              = .ok ⟨[], [], go "/api/v0/version", []⟩ := rfl
          exact (Except.ok.inj (hu.symm.trans h0))
        subst hu2
        exact ⟨by decide, by decide⟩)).1,
    by decide,
    (handled_request_total_growth urlParse (go "http://origin.example:5001") originProxy rfl
      upstream200 Metrics.zero getId _ rfl
      (by
        intro u hu
        have hu2 : u = ⟨[], [], go "/api/v0/id", []⟩ := by
          have h0 : urlParse (go "/api/v0/id") = .ok ⟨[], [], go "/api/v0/id", []⟩ := rfl
          exact (Except.ok.inj (hu.symm.trans h0))
        subst hu2
        exact ⟨by decide, by decide⟩)).1,
    by decide⟩

/-! ## Sequences of request paths -/

theorem countPaths_cons (m : Metrics) (p : GoString) (ps : List GoString) :
    countPaths m (p :: ps) = countPaths (updateRequestURLPathMetric m p).metrics ps := rfl

/-- Every reading of `request_url_path` after a sequence of calls. -/
theorem countPaths_value (m : Metrics) (ps : List GoString) (l : GoString) :
    (countPaths m ps).requestURLPath.value l =
      m.requestURLPath.value l + (if l ∈ monitoredPaths then ps.count l else 0)
        + (if l = go "unmonitored" then ps.length else 0) := by
  induction ps generalizing m with
  | nil => simp [countPaths]
  | cons p ps ih =>
    rw [countPaths_cons, ih, updateRequestURLPathMetric_value, List.count_cons, List.length_cons]
    by_cases hl : l ∈ monitoredPaths
    · by_cases hp : p = l
      · subst hp
        simp only [hl, true_and, if_true, beq_self_eq_true]
        split <;> omega
      · have hp' : ¬ l = p := fun e => hp e.symm
        have hb : (p == l) = false := by simpa using hp
        simp only [hl, hp', and_false, if_false, if_true, hb]
        split
        · simp only [Bool.false_eq_true, if_false]; omega
        · simp only [Bool.false_eq_true, if_false]; omega
    · have hlp : ¬ (p ∈ monitoredPaths ∧ l = p) := fun h => hl (h.2 ▸ h.1)
      simp only [hl, hlp, if_false]
      split <;> omega

theorem countPaths_responseStatus (m : Metrics) (ps : List GoString) :
    (countPaths m ps).responseStatus = m.responseStatus := by
  induction ps generalizing m with
  | nil => rfl
  | cons p ps ih => rw [countPaths_cons, ih, updateRequestURLPathMetric_responseStatus]

theorem countPaths_responseErrors (m : Metrics) (ps : List GoString) :
    (countPaths m ps).responseErrors = m.responseErrors := by
  induction ps generalizing m with
  | nil => rfl
  | cons p ps ih => rw [countPaths_cons, ih, updateRequestURLPathMetric_responseErrors]

theorem updateRequestURLPathMetric_clean (m : Metrics) (p : GoString)
    (h : m.requestURLPath.Clean) :
    (updateRequestURLPathMetric m p).metrics.requestURLPath.Clean := by
  rw [updateRequestURLPathMetric_eq]
  by_cases hp : p ∈ monitoredPaths
  · simp only [hp, if_true]
    exact CounterVec.clean_inc _ _ (CounterVec.clean_inc _ _ h)
  · simp only [hp, if_false]
    exact CounterVec.clean_inc _ _ h

theorem countPaths_clean (m : Metrics) (ps : List GoString) (h : m.requestURLPath.Clean) :
    (countPaths m ps).requestURLPath.Clean := by
  induction ps generalizing m with
  | nil => exact h
  | cons p ps ih => exact ih _ (updateRequestURLPathMetric_clean m p h)

/-- C8: for every finite sequence of request paths applied with
`updateRequestURLPathMetric` to the all-zero state, the final `request_url_path`
reading of each monitored path is the number of its occurrences in the
sequence and the reading under `unmonitored` is the length of the sequence; so
`n` calls with one monitored path give exactly `n`; and every permutation of
the sequence ends in the same state: the same reading under every label, the
same children of `request_url_path` up to the order of their creation, and the
same `response_status` and `response_errors`. -/
theorem request_counts_are_occurrence_counts (paths : List GoString) :
    (∀ p ∈ monitoredPaths,
      (countPaths Metrics.zero paths).requestURLPath.value p = paths.count p) ∧
    (countPaths Metrics.zero paths).requestURLPath.value (go "unmonitored") = paths.length ∧
    (∀ (n : Nat), ∀ p ∈ monitoredPaths,
      (countPaths Metrics.zero (List.replicate n p)).requestURLPath.value p = n) ∧
    (∀ perm : List GoString, paths.Perm perm →
      (∀ l : GoString, (countPaths Metrics.zero perm).requestURLPath.value l
        = (countPaths Metrics.zero paths).requestURLPath.value l) ∧
      (countPaths Metrics.zero perm).requestURLPath.children.Perm
        (countPaths Metrics.zero paths).requestURLPath.children ∧
      (countPaths Metrics.zero perm).responseStatus
        = (countPaths Metrics.zero paths).responseStatus ∧
      (countPaths Metrics.zero perm).responseErrors
        = (countPaths Metrics.zero paths).responseErrors) := by
  have hzero : ∀ l : GoString, Metrics.zero.requestURLPath.value l = 0 := fun _ => rfl
  have hmon : ∀ ps : List GoString, ∀ p ∈ monitoredPaths,
      (countPaths Metrics.zero ps).requestURLPath.value p = ps.count p := by
    intro ps p hp
    have hne : ¬ p = go "unmonitored" := fun h => unmonitored_not_monitored (h ▸ hp)
    simp [countPaths_value, hzero, hp, hne]
  have hperm : ∀ perm : List GoString, paths.Perm perm → ∀ l : GoString,
      (countPaths Metrics.zero perm).requestURLPath.value l
        = (countPaths Metrics.zero paths).requestURLPath.value l := by
    intro perm hp l
    have hcount : perm.count l = paths.count l := (hp.countP_eq (· == l)).symm
    rw [countPaths_value, countPaths_value, hcount, hp.length_eq]
  refine ⟨hmon paths, ?_, ?_, ?_⟩
  · simp [countPaths_value, hzero, unmonitored_not_monitored]
  · intro n p hp
    rw [hmon _ p hp, List.count_replicate_self]
  · intro perm hp
    refine ⟨hperm perm hp, ?_, ?_, ?_⟩
    · exact CounterVec.children_perm _ _
        (countPaths_clean _ _ CounterVec.clean_empty)
        (countPaths_clean _ _ CounterVec.clean_empty) (hperm perm hp)
    · rw [countPaths_responseStatus, countPaths_responseStatus]
    · rw [countPaths_responseErrors, countPaths_responseErrors]

/-! ## Reachable states -/

theorem updateRequestURLPathMetric_labels (m : Metrics) (p l : GoString)
    (h : l ∈ (updateRequestURLPathMetric m p).metrics.requestURLPath.labels) :
    l ∈ m.requestURLPath.labels ∨ l ∈ monitoredPaths ∨ l = go "unmonitored" := by
  rw [updateRequestURLPathMetric_eq] at h
  by_cases hp : p ∈ monitoredPaths
  · simp only [hp, if_true] at h
    rw [CounterVec.mem_labels_inc, CounterVec.mem_labels_inc] at h
    rcases h with (h | h) | h
    · exact Or.inl h
    · exact Or.inr (Or.inl (h ▸ hp))
    · exact Or.inr (Or.inr h)
  · simp only [hp, if_false] at h
    rw [CounterVec.mem_labels_inc] at h
    rcases h with h | h
    · exact Or.inl h
    · exact Or.inr (Or.inr h)

/-- The invariant of `request_url_path`: a clean vector whose labels are
monitored paths or `unmonitored`; every update keeps it. -/
theorem applyUpdates_invariant (parse : UrlParse) (us : List Update) (m : Metrics)
    (hc : m.requestURLPath.Clean)
    (hl : ∀ l ∈ m.requestURLPath.labels, l ∈ monitoredPaths ∨ l = go "unmonitored") :
    (applyUpdates parse m us).requestURLPath.Clean ∧
    ∀ l ∈ (applyUpdates parse m us).requestURLPath.labels,
      l ∈ monitoredPaths ∨ l = go "unmonitored" := by
  induction us generalizing m with
  | nil => exact ⟨hc, hl⟩
  | cons u us ih =>
    have hstep : applyUpdates parse m (u :: us) = applyUpdates parse (u.apply parse m) us := rfl
    rw [hstep]
    cases u with
    | request path =>
      apply ih
      · exact updateRequestURLPathMetric_clean m path hc
      · intro l hmem
        rcases updateRequestURLPathMetric_labels m path l hmem with h | h
        · exact hl l h
        · exact h
    | response code target =>
      apply ih
      · simpa only [Update.apply, updateResponseStatusMetric_requestURLPath] using hc
      · simpa only [Update.apply, updateResponseStatusMetric_requestURLPath] using hl

/-- C9: in every state reached from the all-zero state by a sequence of request
and response metric updates with arbitrary paths, status texts and targets,
every child of `request_url_path`, and so every label with a non-zero reading,
is a monitored path or `unmonitored`; each label has one child, so there are at
most 16 of them; and a path that is neither monitored nor the text
`unmonitored` reads 0. -/
theorem request_labels_stay_within_sixteen (parse : UrlParse) (us : List Update) :
    (∀ l ∈ (applyUpdates parse Metrics.zero us).requestURLPath.labels,
      l ∈ monitoredPaths ∨ l = go "unmonitored") ∧
    (∀ l : GoString, (applyUpdates parse Metrics.zero us).requestURLPath.value l ≠ 0 →
      l ∈ monitoredPaths ∨ l = go "unmonitored") ∧
    (applyUpdates parse Metrics.zero us).requestURLPath.labels.Nodup ∧
    (applyUpdates parse Metrics.zero us).requestURLPath.labels.length ≤ 16 ∧
    (∀ p : GoString, p ∉ monitoredPaths → p ≠ go "unmonitored" →
      (applyUpdates parse Metrics.zero us).requestURLPath.value p = 0) := by
  obtain ⟨hc, hl⟩ := applyUpdates_invariant parse us Metrics.zero CounterVec.clean_empty
    (fun l h => by cases h)
  have hval : ∀ l : GoString, (applyUpdates parse Metrics.zero us).requestURLPath.value l ≠ 0 →
      l ∈ monitoredPaths ∨ l = go "unmonitored" :=
    fun l h => hl l (CounterVec.mem_labels_of_value_ne_zero _ l h)
  refine ⟨hl, hval, hc.1, ?_, ?_⟩
  · have hsub : (applyUpdates parse Metrics.zero us).requestURLPath.labels
        ⊆ go "unmonitored" :: monitoredPaths := by
      intro l h
      rcases hl l h with h | h
      · exact List.mem_cons_of_mem _ h
      · exact h ▸ List.mem_cons_self _ _
    exact (List.subperm_of_subset hc.1 hsub).length_le
  · intro p hp hu
    by_contra h
    rcases hval p h with h | h
    · exact hp h
    · exact hu h

/-! ## Startup -/

theorem Getenv_eq_empty (env : Env) (key : String)
    (h : env key = none ∨ env key = some (go "")) : Getenv env key = go "" := by
  rcases h with h | h <;> simp [Getenv, h]

/-- C10 as stated fails: with `IPFS_API_URL` set to `127.0.0.1:5001`, a value
without a scheme that `url.Parse` rejects, `NewProxy` returns the error and
`main` panics: no handler is registered and no listen address is used, neither
`:9100` nor any other. -/
theorem startup_with_unparseable_upstream_panics :
    Getenv (fun k => if k = "IPFS_API_URL" then some (go "127.0.0.1:5001") else none)
      "IPFS_API_URL" ≠ go "" ∧
    main urlParse (fun k => if k = "IPFS_API_URL" then some (go "127.0.0.1:5001") else none)
      = [.panic "first path segment in URL cannot contain colon"] ∧
    (∀ addr : GoString, Action.listenAndServe addr ∉
      main urlParse
        (fun k => if k = "IPFS_API_URL" then some (go "127.0.0.1:5001") else none)) :=
  ⟨by decide, rfl, by
    intro addr h
    have hm : main urlParse
        (fun k => if k = "IPFS_API_URL" then some (go "127.0.0.1:5001") else none)
        = [.panic "first path segment in URL cannot contain colon"] := rfl
    rw [hm] at h
    simp at h⟩

/-- C10, amended: when `IPFS_API_URL` is unset or empty, `main` does nothing but
the fatal exit (no proxy is constructed, no handler registered, no listener
bound), whatever `LISTEN_ADDRESS` is; and when it is set, non-empty and accepted
by `url.Parse`, `main` constructs the proxy, registers the handlers for `/` and
`/metrics` and listens on the `LISTEN_ADDRESS` value if that is non-empty and
on `:9100` otherwise. -/
theorem startup_configuration (parse : UrlParse) (env : Env) :
    ((env "IPFS_API_URL" = none ∨ env "IPFS_API_URL" = some (go "")) →
      main parse env = [.fatal "IPFS_API_URL environmental variable is required"]) ∧
    (∀ (raw : GoString) (u : URL), env "IPFS_API_URL" = some raw → raw ≠ go "" →
      parse raw = .ok u →
      ((env "LISTEN_ADDRESS" = none ∨ env "LISTEN_ADDRESS" = some (go "")) →
        main parse env
          = [.newProxy raw, .handle "/", .handle "/metrics", .listenAndServe (go ":9100")]) ∧
      (∀ addr : GoString, env "LISTEN_ADDRESS" = some addr → addr ≠ go "" →
        main parse env
          = [.newProxy raw, .handle "/", .handle "/metrics", .listenAndServe addr])) := by
  constructor
  · intro h
    simp [main, Getenv_eq_empty env "IPFS_API_URL" h]
  · intro raw u hraw hne hparse
    have hget : Getenv env "IPFS_API_URL" = raw := by simp [Getenv, hraw]
    constructor
    · intro h
      simp [main, hget, hne, NewProxy, hparse, Getenv_eq_empty env "LISTEN_ADDRESS" h]
    · intro addr haddr hane
      have hget2 : Getenv env "LISTEN_ADDRESS" = addr := by simp [Getenv, haddr]
      simp [main, hget, hne, NewProxy, hparse, hget2, hane]

/-- Three environments: nothing set but the listen address; only the upstream
set; both set. -/
theorem startup_configuration_witness :
    main urlParse (fun k => if k = "LISTEN_ADDRESS" then some (go ":8080") else none)
      = [.fatal "IPFS_API_URL environmental variable is required"] ∧
    main urlParse
        (fun k => if k = "IPFS_API_URL" then some (go "http://origin.example:5001") else none)
      = [.newProxy (go "http://origin.example:5001"), .handle "/", .handle "/metrics",
          .listenAndServe (go ":9100")] ∧
    main urlParse (fun k => if k = "IPFS_API_URL" then some (go "http://origin.example:5001")
        else if k = "LISTEN_ADDRESS" then some (go ":8080") else none)
      = [.newProxy (go "http://origin.example:5001"), .handle "/", .handle "/metrics",
          .listenAndServe (go ":8080")] :=
  ⟨(startup_configuration urlParse
      (fun k => if k = "LISTEN_ADDRESS" then some (go ":8080") else none)).1 (Or.inl rfl),
    ((startup_configuration urlParse
      (fun k => if k = "IPFS_API_URL" then some (go "http://origin.example:5001") else none)).2
      (go "http://origin.example:5001") ⟨go "http", go "origin.example:5001", [], []⟩ rfl
      (by decide) rfl).1 (Or.inl rfl),
    ((startup_configuration urlParse
      (fun k => if k = "IPFS_API_URL" then some (go "http://origin.example:5001")
        else if k = "LISTEN_ADDRESS" then some (go ":8080") else none)).2
      (go "http://origin.example:5001") ⟨go "http", go "origin.example:5001", [], []⟩ rfl
      (by decide) rfl).2 (go ":8080") rfl (by decide)⟩

end IpfsMetricProxy
